import Mathlib

/-!
Verification of the authentication and role-based authorization layer of the
`telegram_request_api` service (src/main.py, src/models.py).

The database is shallow-embedded as lists of rows; SQLAlchemy queries become
list operations with SQL `NULL` semantics (a `NULL` column never matches an
equality or `IN` filter).  External collaborators (the bcrypt password
context, the HMAC used by the `jose` JWT library) are passed in as function
parameters.  Fallible endpoints return `Except Nat` carrying the HTTP status
code of the raised `HTTPException`.
-/

deriving instance DecidableEq for Except

namespace TelegramRequestApi

/-- Row of the `roles` table (src/models.py, class `Role`). -/
structure Role where
  id : Nat
  name : String
deriving DecidableEq, Repr

/-- Modelled from the spec: the `manager_id` column.  This is the row of the
`users` table (src/models.py, class `User`), whose other fields are taken
from the source; `role_id` is a nullable foreign key, hence `Option`.
`get_requests` in src/main.py filters on `User.manager_id`, but the `User`
model in src/models.py (one of several drifting revisions of the service)
declares no such column; the spec describes it as an optional
self-referential manager reference on `User`, nullable like the other
foreign keys. -/
structure User where
  id : Nat
  username : String
  hashed_password : String
  role_id : Option Nat
  manager_id : Option Nat
deriving DecidableEq, Repr

/-- Row of the `requests` table (src/models.py, class `Request`).
`user_id` is a nullable foreign key: the bot path inserts rows without it. -/
structure Request where
  id : Nat
  bottoken : String
  chatid : String
  message : String
  user_id : Option Nat
deriving DecidableEq, Repr

/-- The database visible to the service: the three tables the core touches. -/
structure DB where
  roles : List Role
  users : List User
  requests : List Request
deriving DecidableEq, Repr

/-- The `user.role` relationship: resolve the user's `role_id` against the
`roles` table (first row with that primary key). -/
def userRole (db : DB) (u : User) : Option Role :=
  u.role_id.bind fun rid => db.roles.find? fun r => r.id == rid

/-- The attribute chain `current_user.role.name`: `none` when the
relationship does not resolve
(in Python the attribute access would fail rather than reach any branch). -/
def roleNameOf (db : DB) (u : User) : Option String :=
  (userRole db u).map (·.name)

/-- Endpoint `GET /requests` (src/main.py, `get_requests`).  Branches on
`current_user.role.name`; the result is `none` when that attribute access
cannot resolve, and otherwise either the scoped row list or the status code
of the raised `HTTPException` (403 on the default-deny branch).
SQL `NULL` semantics: a `NULL` `user_id` matches neither `== current_user.id`
nor `IN (...)`. -/
def get_requests (db : DB) (current_user : User) :
    Option (Except Nat (List Request)) :=
  (roleNameOf db current_user).map fun role_name =>
    if role_name = "Admin" then
      Except.ok db.requests
    else if role_name = "Manager" then
      let managed_user_ids :=
        (db.users.filter fun v => v.manager_id == some current_user.id).map (·.id)
      Except.ok (db.requests.filter fun r =>
        match r.user_id with
        | some uid => managed_user_ids.contains uid
        | none => false)
    else if role_name = "User" then
      Except.ok (db.requests.filter fun r => r.user_id == some current_user.id)
    else
      Except.error 403

/-- Primary-key assignment on insert: the autoincrement column hands out an
identifier strictly larger than every existing one. -/
def freshId (ids : List Nat) : Nat :=
  ids.foldr max 0 + 1

/-- Function `authenticate_user` (src/main.py): look the user up by username and keep
it only if the password verifies against the stored hash.  `verify` stands
for the external `pwd_context.verify`. -/
def authenticate_user (verify : String → String → Bool) (db : DB)
    (username password : String) : Option User :=
  match db.users.find? (fun u => u.username == username) with
  | some user => if verify password user.hashed_password then some user else none
  | none => none

/-- Python `str.lower()`: every character lowercased. -/
def pyLower (s : String) : String :=
  String.mk (s.toList.map Char.toLower)

/-- Python `str.capitalize()`: first character titlecased, the rest
lowercased. -/
def pyCapitalize (s : String) : String :=
  match s.toList with
  | [] => ""
  | c :: cs => String.mk (c.toUpper :: cs.map Char.toLower)

/-- Function `create_user_in_db` (src/main.py): hash the password, reuse the `Role`
row named `role_name` or insert one, then insert the user linked to that
role.  `hash` stands for the external `pwd_context.hash` (salted, so it is a
per-call input rather than a fixed function of the password). -/
def create_user_in_db (hash : String → String) (db : DB)
    (username password role_name : String) : DB × User :=
  let hashed_password := hash password
  match db.roles.find? (fun r => r.name == role_name) with
  | some user_role =>
      let new_user : User :=
        { id := freshId (db.users.map (·.id)), username := username,
          hashed_password := hashed_password, role_id := some user_role.id,
          manager_id := none }
      ({ db with users := db.users ++ [new_user] }, new_user)
  | none =>
      let user_role : Role := { id := freshId (db.roles.map (·.id)), name := role_name }
      let new_user : User :=
        { id := freshId (db.users.map (·.id)), username := username,
          hashed_password := hashed_password, role_id := some user_role.id,
          manager_id := none }
      ({ db with roles := db.roles ++ [user_role],
                 users := db.users ++ [new_user] }, new_user)

/-- Endpoint `POST /users` (src/main.py, `create_user`): reject a role name outside
the allowed set (case-insensitively) and a duplicate username with 400,
otherwise create the user with the canonicalized role name. -/
def create_user (hash : String → String) (db : DB)
    (username password role_name : String) : Except Nat (DB × User) :=
  let allowed_roles := ["admin", "manager", "user"]
  let role_lower := pyLower role_name
  if !allowed_roles.contains role_lower then
    Except.error 400
  else if (db.users.find? (fun u => u.username == username)).isSome then
    Except.error 400
  else
    Except.ok (create_user_in_db hash db username password (pyCapitalize role_lower))

/-- The database write of the telegram `handle_message` handler
(src/main.py): insert a `Request` row carrying the bot token, the chat id as
a string, and the message text, with no owning `user_id`. -/
def handle_message (db : DB) (telegram_token : String) (chat_id : Int)
    (text : String) : DB × Request :=
  let new_request : Request :=
    { id := freshId (db.requests.map (·.id)), bottoken := telegram_token,
      chatid := toString chat_id, message := text, user_id := none }
  ({ db with requests := db.requests ++ [new_request] }, new_request)

/-- JWT claim set the service uses: `{sub, exp}` with `exp` a unix
timestamp.  `sub` is optional because `payload.get("sub")` may be absent. -/
structure Claims where
  sub : Option String
  exp : Int
deriving DecidableEq, Repr

/-- A signed token: claims plus a signature over them. -/
structure Token where
  claims : Claims
  sig : String
deriving DecidableEq, Repr

/-- Modelled from the spec: `jwt.encode` of the external `jose` library
signs the claim set with the process-wide secret under a fixed symmetric
algorithm; `mac` stands for that keyed signature. -/
def jwtEncode (mac : String → Claims → String) (secret : String)
    (claims : Claims) : Token :=
  { claims := claims, sig := mac secret claims }

/-- Modelled from the spec: `jwt.decode` of the external `jose` library
verifies the signature and that `exp` has not passed, returning the claim
set on success and failing otherwise. -/
def jwtDecode (mac : String → Claims → String) (secret : String) (now : Int)
    (t : Token) : Option Claims :=
  if t.sig = mac secret t.claims ∧ now < t.claims.exp then some t.claims
  else none

/-- Function `create_access_token` (src/main.py) as used by `login`: encode
`{sub := subject, exp := now + ttl}` (default 15 minutes when no delta is
supplied) and sign it. -/
def create_access_token (mac : String → Claims → String) (secret : String)
    (now : Int) (subject : String) (expires_delta : Option Int) : Token :=
  let expire : Int := now + expires_delta.getD (15 * 60)
  jwtEncode mac secret { sub := some subject, exp := expire }

/-- The token-validation portion of `get_current_user` (src/main.py):
decode the token (any decode failure becomes a 401), extract the `sub`
claim, and fail 401 when it is absent.  Returns the subject on success. -/
def validate_token (mac : String → Claims → String) (secret : String)
    (now : Int) (t : Token) : Option String :=
  match jwtDecode mac secret now t with
  | some payload => payload.sub
  | none => none

/-! ### Helper lemmas -/

/-- In a table whose key column is duplicate-free, looking a member row up by
its own key finds exactly that row. -/
theorem find?_key_of_nodup {α β : Type} [BEq β] [LawfulBEq β] (key : α → β)
    (l : List α) (h : (l.map key).Nodup) (a : α) (ha : a ∈ l) :
    l.find? (fun x => key x == key a) = some a := by
  induction l with
  | nil => cases ha
  | cons b t ih =>
    have h' : (key b :: t.map key).Nodup := by simpa using h
    have hcons : key b ∉ t.map key ∧ (t.map key).Nodup := List.nodup_cons.mp h'
    rcases List.mem_cons.mp ha with rfl | hat
    · simp [List.find?]
    · have hne : key b ≠ key a := fun he =>
        hcons.1 (he ▸ List.mem_map_of_mem key hat)
      have hfalse : (key b == key a) = false := beq_eq_false_iff_ne.mpr hne
      simpa [List.find?, hfalse] using ih hcons.2 hat

/-- Every identifier already present is strictly below the freshly assigned
one. -/
theorem lt_freshId_of_mem (ids : List Nat) (a : Nat) (ha : a ∈ ids) :
    a < freshId ids :=
  Nat.lt_succ_of_le (List.le_max_of_le ha (le_refl a))

/-! ### Sample data used by the witness theorems -/

/-- A populated database: the four roles, an admin, a manager with two
direct reports and one unrelated user, a user with an unrecognized role, and
requests by the reports, the unrelated user and the manager plus one
ownerless row. -/
def sampleDB : DB :=
  { roles := [⟨1, "Admin"⟩, ⟨2, "Manager"⟩, ⟨3, "User"⟩, ⟨4, "Ghost"⟩],
    users :=
      [⟨1, "root", "h1", some 1, none⟩,
       ⟨2, "mgr", "h2", some 2, none⟩,
       ⟨3, "u1", "h3", some 3, some 2⟩,
       ⟨4, "u2", "h4", some 3, some 2⟩,
       ⟨5, "u3", "h5", some 3, none⟩,
       ⟨6, "ghost", "h6", some 4, none⟩],
    requests :=
      [⟨1, "t", "c1", "m1", some 3⟩,
       ⟨2, "t", "c2", "m2", some 4⟩,
       ⟨3, "t", "c3", "m3", some 5⟩,
       ⟨4, "t", "c4", "m4", some 2⟩,
       ⟨5, "t", "c5", "m5", none⟩] }

/-- The manager in `sampleDB`. -/
def sampleManager : User := ⟨2, "mgr", "h2", some 2, none⟩

/-- A plain-role user in `sampleDB`. -/
def sampleUser : User := ⟨3, "u1", "h3", some 3, some 2⟩

/-- The admin in `sampleDB`. -/
def sampleAdmin : User := ⟨1, "root", "h1", some 1, none⟩

/-- The unrecognized-role user in `sampleDB`. -/
def sampleGhost : User := ⟨6, "ghost", "h6", some 4, none⟩

/-! ### Claims -/

/-- C2: a caller whose role name is none of `Admin`, `Manager` and `User`
gets a 403 Forbidden from the request-listing endpoint: the role falls
through every scope branch to the default-deny raise. -/
theorem unrecognized_role_forbidden (db : DB) (u : User) (n : String)
    (hrole : roleNameOf db u = some n)
    (hna : n ≠ "Admin") (hnm : n ≠ "Manager") (hnu : n ≠ "User") :
    get_requests db u = some (Except.error 403) := by
  simp [get_requests, hrole, hna, hnm, hnu]

/-- C2 witness: the `Ghost`-role user of the sample database is denied. -/
theorem unrecognized_role_forbidden_witness :
    roleNameOf sampleDB sampleGhost = some "Ghost" ∧
      get_requests sampleDB sampleGhost = some (Except.error 403) :=
  ⟨by decide,
   unrecognized_role_forbidden sampleDB sampleGhost "Ghost" (by decide)
     (by decide) (by decide) (by decide)⟩

/-- C3: for a caller whose role is `User`, the computed read scope holds a
request row exactly when the row is in the table and its `user_id` equals
the caller's id — never more rows and never fewer. -/
theorem user_scope_exact (db : DB) (u : User) (r : Request)
    (hrole : roleNameOf db u = some "User") :
    (∃ rs, get_requests db u = some (Except.ok rs) ∧ r ∈ rs) ↔
      (r ∈ db.requests ∧ r.user_id = some u.id) := by
  simp [get_requests, hrole, List.mem_filter]

/-- C3 witness: in the sample database, `u1`'s scope holds exactly their own
request. -/
theorem user_scope_exact_witness :
    roleNameOf sampleDB sampleUser = some "User" ∧
      ((∃ rs, get_requests sampleDB sampleUser = some (Except.ok rs) ∧
          (⟨1, "t", "c1", "m1", some 3⟩ : Request) ∈ rs) ↔
        ((⟨1, "t", "c1", "m1", some 3⟩ : Request) ∈ sampleDB.requests ∧
          (some 3 : Option Nat) = some sampleUser.id)) :=
  ⟨by decide, user_scope_exact sampleDB sampleUser ⟨1, "t", "c1", "m1", some 3⟩ (by decide)⟩

/-- C1: for a caller whose role is `Manager`, the computed read scope holds
a request row exactly when its `user_id` is the id of some stored user whose
`manager_id` is the manager's id (a direct report); in particular (the
manager not being their own report, user ids being unique) the manager's own
requests are excluded, as are those of every user outside that set. -/
theorem manager_scope_exact (db : DB) (u : User) (r : Request)
    (hids : (db.users.map (·.id)).Nodup) (hu : u ∈ db.users)
    (hself : u.manager_id ≠ some u.id)
    (hrole : roleNameOf db u = some "Manager") :
    ((∃ rs, get_requests db u = some (Except.ok rs) ∧ r ∈ rs) ↔
      (r ∈ db.requests ∧
        ∃ v, v ∈ db.users ∧ v.manager_id = some u.id ∧ r.user_id = some v.id))
    ∧ (r.user_id = some u.id →
        ∀ rs, get_requests db u = some (Except.ok rs) → r ∉ rs) := by
  have hval : get_requests db u = some (Except.ok (db.requests.filter fun q =>
      match q.user_id with
      | some uid =>
          ((db.users.filter fun v => v.manager_id == some u.id).map (·.id)).contains uid
      | none => false)) := by
    simp [get_requests, hrole]
  have hmain : (∃ rs, get_requests db u = some (Except.ok rs) ∧ r ∈ rs) ↔
      (r ∈ db.requests ∧
        ∃ v, v ∈ db.users ∧ v.manager_id = some u.id ∧ r.user_id = some v.id) := by
    rw [hval]
    simp only [Option.some.injEq, Except.ok.injEq, exists_eq_left', List.mem_filter]
    constructor
    · rintro ⟨hrdb, hpred⟩
      refine ⟨hrdb, ?_⟩
      cases hru : r.user_id with
      | none => rw [hru] at hpred; cases hpred
      | some uid =>
        rw [hru] at hpred
        have hmem := List.elem_iff.mp hpred
        rcases List.mem_map.mp hmem with ⟨v, hvf, hvid⟩
        rcases List.mem_filter.mp hvf with ⟨hvdb, hvm⟩
        exact ⟨v, hvdb, beq_iff_eq.mp hvm, by rw [hvid]⟩
    · rintro ⟨hrdb, v, hvdb, hvm, hru⟩
      refine ⟨hrdb, ?_⟩
      rw [hru]
      exact List.elem_iff.mpr
        (List.mem_map.mpr ⟨v, List.mem_filter.mpr ⟨hvdb, beq_iff_eq.mpr hvm⟩, rfl⟩)
  refine ⟨hmain, ?_⟩
  intro hru rs hrs hmem
  rcases hmain.mp ⟨rs, hrs, hmem⟩ with ⟨-, v, hvdb, hvm, hru'⟩
  have hvid : v.id = u.id := by
    rw [hru] at hru'
    exact (Option.some.injEq _ _ ▸ hru').symm
  have hvu : v = u := List.inj_on_of_nodup_map hids hvdb hu hvid
  exact hself (hvu ▸ hvm)

/-- C1 witness: in the sample database the manager `mgr` (reports `u1`,
`u2`) sees `u1`'s request, and their own request is outside every returned
scope. -/
theorem manager_scope_exact_witness :
    (sampleDB.users.map (·.id)).Nodup ∧ sampleManager ∈ sampleDB.users ∧
      sampleManager.manager_id ≠ some sampleManager.id ∧
      roleNameOf sampleDB sampleManager = some "Manager" ∧
      (((∃ rs, get_requests sampleDB sampleManager = some (Except.ok rs) ∧
            (⟨4, "t", "c4", "m4", some 2⟩ : Request) ∈ rs) ↔
          ((⟨4, "t", "c4", "m4", some 2⟩ : Request) ∈ sampleDB.requests ∧
            ∃ v, v ∈ sampleDB.users ∧ v.manager_id = some sampleManager.id ∧
              (some 2 : Option Nat) = some v.id))
        ∧ ((some 2 : Option Nat) = some sampleManager.id →
            ∀ rs, get_requests sampleDB sampleManager = some (Except.ok rs) →
              (⟨4, "t", "c4", "m4", some 2⟩ : Request) ∉ rs)) :=
  ⟨by decide, by decide, by decide, by decide,
   manager_scope_exact sampleDB sampleManager ⟨4, "t", "c4", "m4", some 2⟩
     (by decide) (by decide) (by decide) (by decide)⟩

/-- C6: on one fixed dataset, the scope an `Admin` gets from the listing
endpoint contains every row of the scope any `Manager` or `User` gets. -/
theorem admin_scope_superset (db : DB) (a v : User) (rsa rsv : List Request)
    (ha : roleNameOf db a = some "Admin")
    (hv : roleNameOf db v = some "Manager" ∨ roleNameOf db v = some "User")
    (hga : get_requests db a = some (Except.ok rsa))
    (hgv : get_requests db v = some (Except.ok rsv)) :
    ∀ r ∈ rsv, r ∈ rsa := by
  have hrsa : rsa = db.requests := by
    simp [get_requests, ha] at hga
    exact hga.symm
  intro r hr
  rw [hrsa]
  rcases hv with hv | hv
  · simp [get_requests, hv] at hgv
    rw [← hgv] at hr
    exact (List.mem_filter.mp hr).1
  · simp [get_requests, hv] at hgv
    rw [← hgv] at hr
    exact (List.mem_filter.mp hr).1

/-- C6 witness: in the sample database, every row of the manager's scope is
in the admin's scope. -/
theorem admin_scope_superset_witness :
    roleNameOf sampleDB sampleAdmin = some "Admin" ∧
      roleNameOf sampleDB sampleManager = some "Manager" ∧
      get_requests sampleDB sampleAdmin = some (Except.ok sampleDB.requests) ∧
      get_requests sampleDB sampleManager =
        some (Except.ok [⟨1, "t", "c1", "m1", some 3⟩, ⟨2, "t", "c2", "m2", some 4⟩]) ∧
      ∀ r ∈ [(⟨1, "t", "c1", "m1", some 3⟩ : Request), ⟨2, "t", "c2", "m2", some 4⟩],
        r ∈ sampleDB.requests :=
  ⟨by decide, by decide, by rfl, by rfl,
   admin_scope_superset sampleDB sampleAdmin sampleManager sampleDB.requests
     [⟨1, "t", "c1", "m1", some 3⟩, ⟨2, "t", "c2", "m2", some 4⟩]
     (by decide) (Or.inl (by decide)) (by rfl) (by rfl)⟩

/-- C7: the row the bot path inserts carries no `user_id`, and on the
resulting database such an ownerless row is inside the `Admin` scope and
outside every `Manager` and `User` scope. -/
theorem ownerless_row_visibility (db : DB) (tok : String) (chat : Int)
    (text : String) (u : User) :
    (handle_message db tok chat text).2.user_id = none
    ∧ (roleNameOf (handle_message db tok chat text).1 u = some "Admin" →
        ∃ rs, get_requests (handle_message db tok chat text).1 u = some (Except.ok rs) ∧
          (handle_message db tok chat text).2 ∈ rs)
    ∧ (roleNameOf (handle_message db tok chat text).1 u = some "Manager" →
        ∀ rs, get_requests (handle_message db tok chat text).1 u = some (Except.ok rs) →
          (handle_message db tok chat text).2 ∉ rs)
    ∧ (roleNameOf (handle_message db tok chat text).1 u = some "User" →
        ∀ rs, get_requests (handle_message db tok chat text).1 u = some (Except.ok rs) →
          (handle_message db tok chat text).2 ∉ rs) := by
  refine ⟨rfl, ?_, ?_, ?_⟩
  · intro hrole
    refine ⟨(handle_message db tok chat text).1.requests, ?_, ?_⟩
    · simp [get_requests, hrole]
    · exact List.mem_append.mpr (Or.inr (List.mem_singleton.mpr rfl))
  · intro hrole rs hrs hmem
    simp [get_requests, hrole] at hrs
    rw [← hrs] at hmem
    have hpred := (List.mem_filter.mp hmem).2
    simp [handle_message] at hpred
  · intro hrole rs hrs hmem
    simp [get_requests, hrole] at hrs
    rw [← hrs] at hmem
    have hpred := (List.mem_filter.mp hmem).2
    simp [handle_message] at hpred

/-- C7 witness: a bot-inserted message row in the sample database is
ownerless, visible to the admin and invisible to the manager. -/
theorem ownerless_row_visibility_witness :
    (handle_message sampleDB "bot" 77 "hello").2.user_id = none
    ∧ roleNameOf (handle_message sampleDB "bot" 77 "hello").1 sampleAdmin = some "Admin"
    ∧ (∃ rs, get_requests (handle_message sampleDB "bot" 77 "hello").1 sampleAdmin =
          some (Except.ok rs) ∧ (handle_message sampleDB "bot" 77 "hello").2 ∈ rs)
    ∧ roleNameOf (handle_message sampleDB "bot" 77 "hello").1 sampleManager = some "Manager"
    ∧ (∀ rs, get_requests (handle_message sampleDB "bot" 77 "hello").1 sampleManager =
          some (Except.ok rs) → (handle_message sampleDB "bot" 77 "hello").2 ∉ rs) :=
  ⟨(ownerless_row_visibility sampleDB "bot" 77 "hello" sampleAdmin).1,
   by decide,
   (ownerless_row_visibility sampleDB "bot" 77 "hello" sampleAdmin).2.1 (by decide),
   by decide,
   (ownerless_row_visibility sampleDB "bot" 77 "hello" sampleManager).2.2.1 (by decide)⟩

/-- C4: with unique usernames, `authenticate_user` returns the stored user
whose username matches exactly when verification of the submitted password
against that user's stored hash succeeds; for that same username any
password failing verification yields `None` (no other user is returned),
and an unknown username yields `None` as well. -/
theorem authenticate_by_password_correct (verify : String → String → Bool)
    (db : DB) (username password : String) (u : User)
    (huniq : (db.users.map (·.username)).Nodup) :
    (u ∈ db.users → u.username = username →
      ((authenticate_user verify db username password = some u ↔
          verify password u.hashed_password = true)
        ∧ (verify password u.hashed_password = false →
            authenticate_user verify db username password = none)))
    ∧ ((∀ v ∈ db.users, v.username ≠ username) →
        authenticate_user verify db username password = none) := by
  constructor
  · intro hu hun
    have hfind : db.users.find? (fun x => x.username == username) = some u := by
      have h := find?_key_of_nodup (fun x => x.username) db.users huniq u hu
      simp only [hun] at h
      exact h
    constructor
    · by_cases hv : verify password u.hashed_password
      · simp [authenticate_user, hfind, hv]
      · simp [authenticate_user, hfind, hv]
    · intro hv
      simp [authenticate_user, hfind, hv]
  · intro hnone
    have hfind : db.users.find? (fun x => x.username == username) = none :=
      List.find?_eq_none.mpr fun v hv => by simpa using hnone v hv
    simp [authenticate_user, hfind]

/-- C4 witness: in the sample database (with an equality-test verifier),
`mgr` authenticates with the matching password, a wrong password for `mgr`
returns `None`, and an unknown username is rejected. -/
theorem authenticate_by_password_correct_witness :
    (sampleDB.users.map (·.username)).Nodup ∧
      sampleManager ∈ sampleDB.users ∧ sampleManager.username = "mgr" ∧
      ((authenticate_user (fun p h => p == h) sampleDB "mgr" "h2" = some sampleManager ↔
          ((fun (p h : String) => p == h) "h2" sampleManager.hashed_password) = true)
        ∧ (((fun (p h : String) => p == h) "wrong" sampleManager.hashed_password) = false →
            authenticate_user (fun p h => p == h) sampleDB "mgr" "wrong" = none)
        ∧ ((∀ v ∈ sampleDB.users, v.username ≠ "nobody") →
            authenticate_user (fun p h => p == h) sampleDB "nobody" "h2" = none)) :=
  ⟨by decide, by decide, by decide,
   ⟨((authenticate_by_password_correct (fun p h => p == h) sampleDB "mgr" "h2"
       sampleManager (by decide)).1 (by decide) (by decide)).1,
    ((authenticate_by_password_correct (fun p h => p == h) sampleDB "mgr" "wrong"
       sampleManager (by decide)).1 (by decide) (by decide)).2,
    (authenticate_by_password_correct (fun p h => p == h) sampleDB "nobody" "h2"
       sampleManager (by decide)).2⟩⟩

/-- C5: a token issued for a subject validates back to that subject at any
time before its expiry, and any token whose `exp` has passed fails
validation, its signature notwithstanding. -/
theorem token_roundtrip_and_expiry (mac : String → Claims → String)
    (secret subject : String) (now ttl now' : Int) (t : Token)
    (hfresh : now' < now + ttl) (hexp : t.claims.exp < now') :
    validate_token mac secret now'
        (create_access_token mac secret now subject (some ttl)) = some subject
    ∧ validate_token mac secret now' t = none := by
  constructor
  · simp [validate_token, create_access_token, jwtEncode, jwtDecode, hfresh]
  · have hnot : ¬ now' < t.claims.exp := not_lt.mpr (le_of_lt hexp)
    simp [validate_token, jwtDecode, hnot]

/-- C5 witness: with a concrete keyed signature, a token issued at time 0
with a 60-second ttl validates to its subject at time 30, and a token that
expired at time -1 is rejected at time 30 even though its signature is
valid. -/
theorem token_roundtrip_and_expiry_witness :
    ((30 : Int) < 0 + 60 ∧ (-1 : Int) < 30) ∧
      validate_token (fun s c => s ++ toString c.exp) "k" 30
          (create_access_token (fun s c => s ++ toString c.exp) "k" 0 "alice" (some 60)) =
        some "alice"
    ∧ validate_token (fun s c => s ++ toString c.exp) "k" 30
        (jwtEncode (fun s c => s ++ toString c.exp) "k" ⟨some "alice", -1⟩) = none :=
  ⟨⟨by decide, by decide⟩,
   (token_roundtrip_and_expiry (fun s c => s ++ toString c.exp) "k" "alice" 0 60 30
       (jwtEncode (fun s c => s ++ toString c.exp) "k" ⟨some "alice", -1⟩)
       (by decide) (by decide)).1,
   (token_roundtrip_and_expiry (fun s c => s ++ toString c.exp) "k" "alice" 0 60 30
       (jwtEncode (fun s c => s ++ toString c.exp) "k" ⟨some "alice", -1⟩)
       (by decide) (by decide)).2⟩

/-- C9: creating two users with the same role name never leaves two `Role`
rows for that name: the second creation changes the `roles` table not at
all and links the new user to an existing `Role` row carrying that name;
the number of rows named `role_name` after both creations is one when none
existed before and unchanged otherwise. -/
theorem role_creation_idempotent (hash : String → String) (db : DB)
    (un1 pw1 un2 pw2 role_name : String) :
    (create_user_in_db hash (create_user_in_db hash db un1 pw1 role_name).1
        un2 pw2 role_name).1.roles
      = (create_user_in_db hash db un1 pw1 role_name).1.roles
    ∧ (∃ r, r ∈ (create_user_in_db hash db un1 pw1 role_name).1.roles ∧
        r.name = role_name ∧
        (create_user_in_db hash (create_user_in_db hash db un1 pw1 role_name).1
            un2 pw2 role_name).2.role_id = some r.id)
    ∧ ((create_user_in_db hash (create_user_in_db hash db un1 pw1 role_name).1
          un2 pw2 role_name).1.roles.countP (fun r => r.name == role_name)
        = max (db.roles.countP (fun r => r.name == role_name)) 1) := by
  cases h : db.roles.find? (fun r => r.name == role_name) with
  | some r0 =>
    have hr0db : r0 ∈ db.roles := List.mem_of_find?_eq_some h
    have hr0name : r0.name = role_name := by simpa using List.find?_some h
    have hcpos : 0 < db.roles.countP (fun r => r.name == role_name) :=
      List.countP_pos_iff.mpr ⟨r0, hr0db, by simpa using hr0name⟩
    refine ⟨by simp [create_user_in_db, h], ⟨r0, ?_, hr0name, ?_⟩, ?_⟩
    · simp [create_user_in_db, h, hr0db]
    · simp [create_user_in_db, h]
    · have hroles : (create_user_in_db hash (create_user_in_db hash db un1 pw1 role_name).1
          un2 pw2 role_name).1.roles = db.roles := by
        simp [create_user_in_db, h]
      rw [hroles, Nat.max_eq_left hcpos]
  | none =>
    have hzero : db.roles.countP (fun r => r.name == role_name) = 0 :=
      List.countP_eq_zero.mpr (List.find?_eq_none.mp h)
    have hfind1 : (db.roles ++
        [({ id := freshId (db.roles.map (·.id)), name := role_name } : Role)]).find?
          (fun r => r.name == role_name)
        = some { id := freshId (db.roles.map (·.id)), name := role_name } := by
      rw [List.find?_append, h]
      simp [List.find?]
    refine ⟨?_, ?_, ?_⟩
    · simp [create_user_in_db, h, hfind1]
    · refine ⟨{ id := freshId (db.roles.map (·.id)), name := role_name }, ?_, rfl, ?_⟩
      · simp [create_user_in_db, h]
      · simp [create_user_in_db, h, hfind1]
    · simp [create_user_in_db, h, hfind1, List.countP_append, hzero]

/-- C9 witness: creating `alice` then `bob` with role name `User` in the
empty database leaves a single `User` role row, reused by `bob`. -/
theorem role_creation_idempotent_witness :
    (create_user_in_db (fun s => s) (create_user_in_db (fun s => s) ⟨[], [], []⟩
        "alice" "p1" "User").1 "bob" "p2" "User").1.roles
      = (create_user_in_db (fun s => s) ⟨[], [], []⟩ "alice" "p1" "User").1.roles
    ∧ (∃ r, r ∈ (create_user_in_db (fun s => s) ⟨[], [], []⟩ "alice" "p1" "User").1.roles ∧
        r.name = "User" ∧
        (create_user_in_db (fun s => s) (create_user_in_db (fun s => s) ⟨[], [], []⟩
            "alice" "p1" "User").1 "bob" "p2" "User").2.role_id = some r.id)
    ∧ ((create_user_in_db (fun s => s) (create_user_in_db (fun s => s) ⟨[], [], []⟩
          "alice" "p1" "User").1 "bob" "p2" "User").1.roles.countP
            (fun r => r.name == "User")
        = max ((⟨[], [], []⟩ : DB).roles.countP (fun r => r.name == "User")) 1) :=
  role_creation_idempotent (fun s => s) ⟨[], [], []⟩ "alice" "p1" "bob" "p2" "User"

/-- With unique role ids, the user inserted by `create_user_in_db` resolves
through its `role_id` to a role named exactly by the requested role name. -/
theorem roleNameOf_create_user_in_db (hash : String → String) (db : DB)
    (username password n : String)
    (hids : (db.roles.map (·.id)).Nodup) :
    roleNameOf (create_user_in_db hash db username password n).1
      (create_user_in_db hash db username password n).2 = some n := by
  cases h : db.roles.find? (fun r => r.name == n) with
  | some r0 =>
    have hr0db : r0 ∈ db.roles := List.mem_of_find?_eq_some h
    have hr0name : r0.name = n := by simpa using List.find?_some h
    have hfind : db.roles.find? (fun x => x.id == r0.id) = some r0 :=
      find?_key_of_nodup (fun x => x.id) db.roles hids r0 hr0db
    simp [create_user_in_db, h, roleNameOf, userRole, hfind, hr0name]
  | none =>
    have hnone : db.roles.find?
        (fun x => x.id == freshId (db.roles.map (·.id))) = none := by
      apply List.find?_eq_none.mpr
      intro r hr
      have hlt : r.id < freshId (db.roles.map (·.id)) :=
        lt_freshId_of_mem _ _ (List.mem_map_of_mem _ hr)
      simp [Nat.ne_of_lt hlt]
    simp only [create_user_in_db, h, roleNameOf, userRole, Option.some_bind]
    rw [List.find?_append, hnone]
    simp [List.find?]

/-- C10: whenever the `POST /users` endpoint succeeds (role ids being
unique), the created user's stored role name is one of the three
capitalized strings `Admin`, `Manager`, `User`, so that user can never
reach the default-deny 403 branch of the request-listing endpoint. -/
theorem created_user_never_forbidden (hash : String → String) (db : DB)
    (username password role_name : String) (db' : DB) (new_user : User)
    (hids : (db.roles.map (·.id)).Nodup)
    (hok : create_user hash db username password role_name =
      Except.ok (db', new_user)) :
    ∃ n, roleNameOf db' new_user = some n
      ∧ (n = "Admin" ∨ n = "Manager" ∨ n = "User")
      ∧ get_requests db' new_user ≠ some (Except.error 403) := by
  cases hc1 : ["admin", "manager", "user"].contains (pyLower role_name) with
  | false =>
    simp only [create_user, hc1, Bool.not_false] at hok
    simp at hok
  | true =>
    cases hc2 : (db.users.find? (fun u => u.username == username)).isSome with
    | true =>
      simp only [create_user, hc1, hc2, Bool.not_true] at hok
      simp at hok
    | false =>
      simp only [create_user, hc1, hc2, Bool.not_true] at hok
      simp at hok
      have hpair : create_user_in_db hash db username password
          (pyCapitalize (pyLower role_name)) = (db', new_user) := hok
      have hrole := roleNameOf_create_user_in_db hash db username password
        (pyCapitalize (pyLower role_name)) hids
      rw [hpair] at hrole
      have hmem : (pyLower role_name) ∈ ["admin", "manager", "user"] :=
        List.elem_iff.mp hc1
      rcases (by simpa using hmem : (pyLower role_name) = "admin" ∨
          (pyLower role_name) = "manager" ∨ (pyLower role_name) = "user")
        with hl | hl | hl
      · have hcap : pyCapitalize (pyLower role_name) = "Admin" := by rw [hl]; decide
        rw [hcap] at hrole
        exact ⟨"Admin", hrole, Or.inl rfl, fun heq => by
          simp [get_requests, hrole] at heq⟩
      · have hcap : pyCapitalize (pyLower role_name) = "Manager" := by rw [hl]; decide
        rw [hcap] at hrole
        exact ⟨"Manager", hrole, Or.inr (Or.inl rfl), fun heq => by
          simp [get_requests, hrole] at heq⟩
      · have hcap : pyCapitalize (pyLower role_name) = "User" := by rw [hl]; decide
        rw [hcap] at hrole
        exact ⟨"User", hrole, Or.inr (Or.inr rfl), fun heq => by
          simp [get_requests, hrole] at heq⟩

/-- C10 witness: creating `alice` with role name `user` in the empty
database succeeds, stores the capitalized role `User`, and `alice` is not
denied by the listing endpoint. -/
theorem created_user_never_forbidden_witness :
    ((⟨[], [], []⟩ : DB).roles.map (·.id)).Nodup ∧
      create_user (fun s => s) ⟨[], [], []⟩ "alice" "pw" "user" =
        Except.ok (⟨[⟨1, "User"⟩], [⟨1, "alice", "pw", some 1, none⟩], []⟩,
          ⟨1, "alice", "pw", some 1, none⟩) ∧
      ∃ n, roleNameOf ⟨[⟨1, "User"⟩], [⟨1, "alice", "pw", some 1, none⟩], []⟩
            ⟨1, "alice", "pw", some 1, none⟩ = some n
        ∧ (n = "Admin" ∨ n = "Manager" ∨ n = "User")
        ∧ get_requests ⟨[⟨1, "User"⟩], [⟨1, "alice", "pw", some 1, none⟩], []⟩
            ⟨1, "alice", "pw", some 1, none⟩ ≠ some (Except.error 403) :=
  ⟨by decide, by decide,
   created_user_never_forbidden (fun s => s) ⟨[], [], []⟩ "alice" "pw" "user"
     ⟨[⟨1, "User"⟩], [⟨1, "alice", "pw", some 1, none⟩], []⟩
     ⟨1, "alice", "pw", some 1, none⟩ (by decide) (by decide)⟩

end TelegramRequestApi
